import Mathlib

/-!
Verification of the p3 editor-session core against its specification.

The Rust sources under `src/gui/src/main.rs` (session facade `App`) and
`src/config/src/lib.rs` (`Config`) are embedded shallowly below.  The
`core` crate's data-model modules (`core::pane`, `core::document`,
`core::hotkey`, `core::action`, `core::value`), the `state` crate, the
`gui::util` helpers and the text-buffer type are declared and called by
those files but their sources are not in the repository snapshot; each
such definition is modelled from the specification and carries a doc
comment saying so.  Rust `HashMap`s are modelled as association lists
whose operations mirror `get` / `insert` (overwrite) / `remove`.
-/

namespace P3

/-- Association-list lookup; models `HashMap::get` (first binding wins). -/
def lget {κ α : Type} [DecidableEq κ] : List (κ × α) → κ → Option α
  | [], _ => none
  | (k, v) :: rest, key => if k = key then some v else lget rest key

/-- Association-list insert-or-overwrite; models `HashMap::insert`. -/
def lput {κ α : Type} [DecidableEq κ] : List (κ × α) → κ → α → List (κ × α)
  | [], key, v => [(key, v)]
  | (k, w) :: rest, key, v =>
    if k = key then (key, v) :: rest else (k, w) :: lput rest key v

/-- Association-list removal of every binding of a key; models `HashMap::remove`. -/
def lerase {κ α : Type} [DecidableEq κ] : List (κ × α) → κ → List (κ × α)
  | [], _ => []
  | (k, v) :: rest, key =>
    if k = key then lerase rest key else (k, v) :: lerase rest key

/-- In-place update of the value bound to a key, leaving the map unchanged
when the key is absent; models `HashMap::get_mut` followed by a field update. -/
def lmodify {κ α : Type} [DecidableEq κ] : List (κ × α) → κ → (α → α) → List (κ × α)
  | [], _, _ => []
  | (k, v) :: rest, key, f =>
    if k = key then (k, f v) :: rest else (k, v) :: lmodify rest key f

theorem lget_lput_self {κ α : Type} [DecidableEq κ] (l : List (κ × α)) (key : κ) (v : α) :
    lget (lput l key v) key = some v := by
  induction l with
  | nil => simp [lget, lput]
  | cons kv rest ih =>
    by_cases h : kv.1 = key
    · simp [lget, lput, h]
    · simp [lget, lput, h, ih]

theorem lget_lput_ne {κ α : Type} [DecidableEq κ] (l : List (κ × α)) (key key' : κ) (v : α)
    (h : key' ≠ key) : lget (lput l key v) key' = lget l key' := by
  have h2 : key ≠ key' := Ne.symm h
  induction l with
  | nil => simp [lget, lput, h2]
  | cons kv rest ih =>
    by_cases hk : kv.1 = key
    · simp [lget, lput, hk, h2]
    · by_cases hk' : kv.1 = key'
      · simp [lget, lput, hk, hk', h]
      · simp [lget, lput, hk, hk', ih]

theorem lget_lerase_self {κ α : Type} [DecidableEq κ] (l : List (κ × α)) (key : κ) :
    lget (lerase l key) key = none := by
  induction l with
  | nil => simp [lget, lerase]
  | cons kv rest ih =>
    by_cases h : kv.1 = key
    · simp [lerase, h, ih]
    · simp [lget, lerase, h, ih]

theorem lget_lerase_ne {κ α : Type} [DecidableEq κ] (l : List (κ × α)) (key key' : κ)
    (h : key' ≠ key) : lget (lerase l key) key' = lget l key' := by
  have h2 : key ≠ key' := Ne.symm h
  induction l with
  | nil => simp [lerase]
  | cons kv rest ih =>
    by_cases hk : kv.1 = key
    · simp [lget, lerase, hk, h2, ih]
    · simp [lget, lerase, hk, ih]

theorem lerase_of_lget_none {κ α : Type} [DecidableEq κ] (l : List (κ × α)) (key : κ)
    (h : lget l key = none) : lerase l key = l := by
  induction l with
  | nil => simp [lerase]
  | cons kv rest ih =>
    by_cases hk : kv.1 = key
    · simp [lget, hk] at h
    · simp [lget, hk] at h
      simp [lerase, hk, ih h]

theorem lget_lmodify_self {κ α : Type} [DecidableEq κ] (l : List (κ × α)) (key : κ)
    (f : α → α) (v : α) (h : lget l key = some v) :
    lget (lmodify l key f) key = some (f v) := by
  induction l with
  | nil => simp [lget] at h
  | cons kv rest ih =>
    by_cases hk : kv.1 = key
    · simp [lget, hk] at h
      simp [lget, lmodify, hk, h]
    · simp [lget, hk] at h
      simp [lget, lmodify, hk, ih h]

theorem lmodify_of_lget_none {κ α : Type} [DecidableEq κ] (l : List (κ × α)) (key : κ)
    (f : α → α) (h : lget l key = none) : lmodify l key f = l := by
  induction l with
  | nil => simp [lmodify]
  | cons kv rest ih =>
    by_cases hk : kv.1 = key
    · simp [lget, hk] at h
    · simp [lget, hk] at h
      simp [lmodify, hk, ih h]

theorem lget_lmodify_ne {κ α : Type} [DecidableEq κ] (l : List (κ × α)) (key key' : κ)
    (f : α → α) (h : key' ≠ key) :
    lget (lmodify l key f) key' = lget l key' := by
  have h2 : key ≠ key' := Ne.symm h
  induction l with
  | nil => simp [lmodify]
  | cons kv rest ih =>
    by_cases hk : kv.1 = key
    · simp [lget, lmodify, hk, h2]
    · by_cases hk' : kv.1 = key'
      · simp [lget, lmodify, hk, hk', h]
      · simp [lget, lmodify, hk, hk', ih]

theorem length_lmodify {κ α : Type} [DecidableEq κ] (l : List (κ × α)) (key : κ) (f : α → α) :
    (lmodify l key f).length = l.length := by
  induction l with
  | nil => simp [lmodify]
  | cons kv rest ih =>
    by_cases hk : kv.1 = key
    · simp [lmodify, hk]
    · simp [lmodify, hk, ih]

theorem length_lput_of_none {κ α : Type} [DecidableEq κ] (l : List (κ × α)) (key : κ) (v : α)
    (h : lget l key = none) : (lput l key v).length = l.length + 1 := by
  induction l with
  | nil => simp [lput]
  | cons kv rest ih =>
    by_cases hk : kv.1 = key
    · simp [lget, hk] at h
    · simp [lget, hk] at h
      simp [lput, hk, ih h]

theorem lget_some_mem {κ α : Type} [DecidableEq κ] (l : List (κ × α)) (key : κ) (v : α)
    (h : lget l key = some v) : (key, v) ∈ l := by
  induction l with
  | nil => simp [lget] at h
  | cons kv rest ih =>
    by_cases hk : kv.1 = key
    · simp [lget, hk] at h
      have hkv : (key, v) = kv := by
        rw [← hk, ← h]
      rw [hkv]
      exact List.mem_cons_self _ _
    · simp [lget, hk] at h
      exact List.mem_cons_of_mem _ (ih h)

theorem eq_singleton_of_length_one {κ α : Type} [DecidableEq κ] (l : List (κ × α)) (key : κ)
    (v : α) (hlen : l.length = 1) (h : lget l key = some v) : l = [(key, v)] := by
  match l with
  | [kv] =>
    by_cases hk : kv.1 = key
    · simp [lget, hk] at h
      have : kv = (key, v) := by
        calc kv = (kv.1, kv.2) := rfl
          _ = (key, v) := by rw [hk, h]
      rw [this]
    · simp [lget, hk] at h

/-- All keys of the association list lie below the allocator counter; the
well-formedness invariant every store reachable from `new` satisfies. -/
def keysBelow {α : Type} (l : List (Nat × α)) (n : Nat) : Prop :=
  ∀ kv ∈ l, kv.1 < n

theorem lget_of_keysBelow {α : Type} (l : List (Nat × α)) (n : Nat)
    (hwf : keysBelow l n) : lget l n = none := by
  cases h : lget l n with
  | none => rfl
  | some v =>
    have hmem := lget_some_mem l n v h
    have := hwf _ hmem
    omega

theorem lt_of_keysBelow {α : Type} (l : List (Nat × α)) (n : Nat) (key : Nat) (v : α)
    (hwf : keysBelow l n) (h : lget l key = some v) : key < n :=
  hwf _ (lget_some_mem l key v h)

/-- Modelled from the spec: `core::value::Value`, a tagged sum with variants
Integer (signed 64-bit), Float (64-bit IEEE-754, carried here as its bit
pattern so that equality stays structural), Boolean, String, and Color with
four 8-bit channels. -/
inductive Value : Type
  | integer (i : Int)
  | float (bits : Nat)
  | boolean (b : Bool)
  | string (s : String)
  | color (r g b a : Nat)
deriving DecidableEq

/-- `config::Config`: a mapping from namespace to a mapping from property to
`Value`, both levels Rust `HashMap`s, modelled as association lists. -/
structure Config : Type where
  namespaces : List (String × List (String × Value))
deriving DecidableEq

def Config.new : Config := ⟨[]⟩

/-- `Config::insert`: if the namespace exists, insert the property into its
inner map (overwriting); otherwise create a fresh singleton namespace map. -/
def Config.insert (c : Config) (ns prop : String) (v : Value) : Config :=
  if (lget c.namespaces ns).isSome then
    ⟨lmodify c.namespaces ns (fun m => lput m prop v)⟩
  else
    ⟨lput c.namespaces ns [(prop, v)]⟩

/-- `Config::get`: look the namespace up, then the property, cloning the value. -/
def Config.get (c : Config) (ns prop : String) : Option Value :=
  match lget c.namespaces ns with
  | some m => lget m prop
  | none => none

/-- `Config::remove_property`. -/
def Config.remove_property (c : Config) (ns prop : String) : Option Value × Config :=
  match lget c.namespaces ns with
  | some m => (lget m prop, ⟨lmodify c.namespaces ns (fun mm => lerase mm prop)⟩)
  | none => (none, c)

/-- Modelled from the spec: the opaque text buffer (`iced` `text_editor::Content`),
an edit target satisfying the operations apply-edit / read-text / is-edit-action.
Carried here as its text. -/
structure Content : Type where
  text : String
deriving DecidableEq

/-- Modelled from the spec: `Content::with_text`. -/
def Content.withText (s : String) : Content := ⟨s⟩

/-- Modelled from the spec: the mutating edit actions of the text buffer. -/
inductive TextEdit : Type
  | insert (c : Char)
  | paste (s : String)
  | enter
  | backspace
  | delete
deriving DecidableEq

/-- Modelled from the spec: a buffer action (`iced` `text_editor::Action`);
`edit` carries the mutating actions, the rest are cursor and view motions. -/
inductive TextAction : Type
  | edit (e : TextEdit)
  | move
  | select
  | click
  | drag
  | scroll
deriving DecidableEq

/-- Modelled from the spec: the buffer's is-edit-action predicate: exactly the
`edit` actions are classified as mutating. -/
def TextAction.is_edit : TextAction → Bool
  | .edit _ => true
  | _ => false

/-- Modelled from the spec: `Content::perform`, applying a buffer action to the
text (cursorless rendition of the opaque edit target: edits change the text,
motions leave it unchanged). -/
def Content.perform (c : Content) (a : TextAction) : Content :=
  match a with
  | .edit (.insert ch) => ⟨c.text.push ch⟩
  | .edit (.paste s) => ⟨c.text ++ s⟩
  | .edit .enter => ⟨c.text.push (Char.ofNat 10)⟩
  | .edit .backspace => ⟨String.mk c.text.toList.dropLast⟩
  | .edit .delete => c
  | _ => c

/-- `core::document::DocumentId`: an opaque monotonically allocated integer. -/
def DocumentId : Type := Nat

instance : DecidableEq DocumentId := fun a b => instDecidableEqNat a b

/-- `core::document::DocumentHandler` (generic over the buffer type in the
source, instantiated at `Content` by the facade): buffer, absolute path,
display filename derived from the path, and the dirty flag. Modelled from the
spec. -/
structure DocumentHandler : Type where
  text_content : Content
  path : String
  filename : String
  changed : Bool
deriving DecidableEq

/-- Modelled from the spec: `core::document::DocumentStore`, a mapping
`DocumentId → DocumentHandler` plus a fresh-id allocator counter beginning
at 1. -/
structure DocumentStore : Type where
  docs : List (Nat × DocumentHandler)
  next_id : Nat

def DocumentStore.new : DocumentStore := ⟨[], 1⟩

/-- Modelled from the spec: `DocumentStore::add` allocates a fresh id,
inserts, and returns the id. -/
def DocumentStore.add (s : DocumentStore) (h : DocumentHandler) : Nat × DocumentStore :=
  (s.next_id, ⟨lput s.docs s.next_id h, s.next_id + 1⟩)

/-- Modelled from the spec: `DocumentStore::get`; unknown id yields nothing. -/
def DocumentStore.get (s : DocumentStore) (id : Nat) : Option DocumentHandler :=
  lget s.docs id

/-- Modelled from the spec: `DocumentStore::remove`; unknown id is a no-op. -/
def DocumentStore.remove (s : DocumentStore) (id : Nat) : DocumentStore :=
  ⟨lerase s.docs id, s.next_id⟩

/-- Modelled from the spec: `DocumentStore::get_mut` followed by a mutation of
the handler in place; unknown id leaves the store unchanged. -/
def DocumentStore.modify (s : DocumentStore) (id : Nat) (f : DocumentHandler → DocumentHandler) :
    DocumentStore :=
  ⟨lmodify s.docs id f, s.next_id⟩

/-- Modelled from the spec: `DocumentStore::count`. -/
def DocumentStore.count (s : DocumentStore) : Nat := s.docs.length

/-- The document-store well-formedness invariant: every allocated id lies
below the allocator counter (true of every store reachable from `new`). -/
def DocumentStore.wf (s : DocumentStore) : Prop := keysBelow s.docs s.next_id

instance (s : DocumentStore) : Decidable s.wf := by
  unfold DocumentStore.wf keysBelow
  infer_instance

/-- `core::pane::Pane`: a tagged sum of the pane kinds. Modelled from the spec. -/
inductive Pane : Type
  | newDocument
  | editor (id : Nat)
  | buffer
  | config
deriving DecidableEq

/-- Modelled from the spec: `core::pane::PaneModel`, a mapping
`PaneId → Pane`, an allocator counter, and the optional focused pane id. -/
structure PaneModel : Type where
  panes : List (Nat × Pane)
  next_id : Nat
  open_id : Option Nat

def PaneModel.new : PaneModel := ⟨[], 0, none⟩

/-- Modelled from the spec: `PaneModel::add` allocates a fresh id and inserts. -/
def PaneModel.add (m : PaneModel) (p : Pane) : Nat × PaneModel :=
  (m.next_id, ⟨lput m.panes m.next_id p, m.next_id + 1, m.open_id⟩)

/-- Modelled from the spec: `PaneModel::open` focuses an existing pane and is
a no-op when the id is absent. -/
def PaneModel.openPane (m : PaneModel) (id : Nat) : PaneModel :=
  if (lget m.panes id).isSome then { m with open_id := some id } else m

/-- Modelled from the spec: `PaneModel::get`. -/
def PaneModel.get (m : PaneModel) (id : Nat) : Option Pane := lget m.panes id

/-- Modelled from the spec: `PaneModel::get_open_id`. -/
def PaneModel.get_open_id (m : PaneModel) : Option Nat := m.open_id

/-- Modelled from the spec: `PaneModel::get_open`, the focused pane if any. -/
def PaneModel.get_open (m : PaneModel) : Option Pane :=
  match m.open_id with
  | some id => lget m.panes id
  | none => none

/-- Modelled from the spec: `PaneModel::replace` swaps the pane stored under
an existing id, preserving both the id and (trivially) the focus; a missing
id is a silent no-op. -/
def PaneModel.replace (m : PaneModel) (id : Nat) (p : Pane) : PaneModel :=
  { m with panes := lmodify m.panes id (fun _ => p) }

/-- Modelled from the spec: `PaneModel::remove` returns the removed pane;
removing the currently open pane clears `open_id`; a missing id is a silent
no-op. -/
def PaneModel.remove (m : PaneModel) (id : Nat) : Option Pane × PaneModel :=
  match lget m.panes id with
  | some p =>
    (some p,
      ⟨lerase m.panes id, m.next_id,
        if m.open_id = some id then none else m.open_id⟩)
  | none => (none, m)

/-- Modelled from the spec: `PaneModel::count`. -/
def PaneModel.count (m : PaneModel) : Nat := m.panes.length

/-- The pane-model well-formedness invariant: every allocated pane id lies
below the allocator counter (true of every model reachable from `new`). -/
def PaneModel.wf (m : PaneModel) : Prop := keysBelow m.panes m.next_id

instance (m : PaneModel) : Decidable m.wf := by
  unfold PaneModel.wf keysBelow
  infer_instance

/-- `core::hotkey::Modifiers`: the modifier-set enum. Modelled from the spec. -/
inductive Modifiers : Type
  | none
  | ctrl
  | alt
  | ctrlAlt
deriving DecidableEq

/-- `core::hotkey::HotKey`: a (modifier-set, character) chord with structural
equality, used as a map key. Modelled from the spec. -/
structure HotKey : Type where
  modifiers : Modifiers
  key : Char
deriving DecidableEq

/-- `state::State`: the session state aggregating the document store, the
pane model and the config (the theme catalog, irrelevant to every claim, is
omitted). Modelled from the spec. -/
structure State : Type where
  documents : DocumentStore
  panes : PaneModel
  config : Config

/-- `core::action::FileAction`. Modelled from the spec. -/
inductive FileAction : Type
  | pickFile
  | openFileCurrentTab (path : String)
  | openFileForceCurrentTab (path : String)
  | openFileNewTab (path : String)
deriving DecidableEq

/-- `core::action::PaneAction`. Modelled from the spec. -/
inductive PaneAction : Type
  | add (p : Pane)
  | openPane (id : Nat)
  | close (id : Nat)
  | replace (id : Nat) (p : Pane)
deriving DecidableEq

/-- `core::action::DocumentAction`. Modelled from the spec. -/
inductive DocumentAction : Type
  | add (h : DocumentHandler)
  | openDoc (id : Nat)
  | save (id : Nat)
  | remove (id : Nat)
deriving DecidableEq

/-- `core::action::GenericAction`: a leaf mutation of one store. Modelled
from the spec. -/
inductive GenericAction : Type
  | file (a : FileAction)
  | pane (a : PaneAction)
  | document (a : DocumentAction)
deriving DecidableEq

/-- Modelled from the spec: `core::action::Action`, the plugin-rewritable
wrapper around a generic action. -/
structure Action : Type where
  generic : GenericAction
deriving DecidableEq

def Action.new (g : GenericAction) : Action := ⟨g⟩

/-- `iced::keyboard::Key`: a character key carries its string; named and
unidentified keys carry no character. Modelled from the spec's key stream. -/
inductive Key : Type
  | character (s : String)
  | named (code : Nat)
  | unidentified
deriving DecidableEq

/-- `iced::keyboard::Modifiers`: the four-flag modifier mask delivered by the
windowing layer (Shift, Ctrl, Alt, logo). Modelled from the spec. -/
structure IcedModifiers : Type where
  shift : Bool
  control : Bool
  alt : Bool
  logo : Bool
deriving DecidableEq

/-- `gui::AppMessage` restricted to the claim-relevant constructors (theme,
plugin-toggle and directory messages delegate to collaborators that are out
of scope for every claim). -/
inductive AppMessage : Type
  | noneMsg
  | action (a : Action)
  | genericAction (a : GenericAction)
  | openedFile (r : Except Unit (String × String))
  | savedFile (id : Nat)
  | textEditorAction (a : TextAction) (id : Nat)
  | onKeyPress (key : Key) (modifiers : IcedModifiers)

/-- The asynchronous tasks an update step schedules: `Task::done` of a
message, the file-dialog task, a file read whose completion becomes
`OpenedFile`, and a file write whose completion is mapped to the stored
message by `move |_| message.clone()` — discarding the write's result. -/
inductive AppTask : Type
  | doneMsg (m : AppMessage)
  | pickFileTask
  | openFileTask (path : String)
  | saveFileTask (path : String) (text : String) (m : AppMessage)

/-- Completion semantics of the read/dialog tasks: the result, successful or
failed, re-enters the loop as `OpenedFile`. -/
def AppTask.openCompletion : AppTask → Except Unit (String × String) → Option AppMessage
  | .pickFileTask, r => some (.openedFile r)
  | .openFileTask _, r => some (.openedFile r)
  | _, _ => none

/-- Completion semantics of the save task, mirroring
`Task::perform(save_file(..), move |_| message.clone())`: whatever the write
returned — success or failure — the precomputed message is delivered. -/
def AppTask.saveCompletion : AppTask → Except Unit Unit → Option AppMessage
  | .saveFileTask _ _ m, _ => some m
  | _, _ => none

/-- Characters of the last separator-delimited path component. -/
def getFileNameAux : List Char → List Char → List Char
  | [], acc => acc.reverse
  | c :: rest, acc =>
    if c = '/' then getFileNameAux rest [] else getFileNameAux rest (c :: acc)

/-- Modelled from the spec: `util::get_file_name`, the display filename
derived from the path (its last separator-delimited component). -/
def getFileName (path : String) : String :=
  String.mk (getFileNameAux path.toList [])

/-- The first character of a key's string, `c.chars().next().unwrap_or_default()`. -/
def firstChar (s : String) : Char :=
  match s.toList with
  | [] => Char.ofNat 0
  | c :: _ => c

/-- `gui::App`: session state plus the hotkey registry
`HashMap<HotKey, Box<dyn Fn(&State) -> AppMessage>>` (the plugin host, whose
loaded default plugin is a pass-through, is modelled inside `update`). -/
structure App : Type where
  state : State
  hotkeys : List (HotKey × (State → AppMessage))

/-- `App::perform_action`, the generic-action reducer of `gui/src/main.rs`. -/
def App.perform_action (app : App) (action : GenericAction) : App × List AppTask :=
  match action with
  | GenericAction.file fa =>
    match fa with
    | FileAction.pickFile => (app, [AppTask.pickFileTask])
    | FileAction.openFileCurrentTab path => (app, [AppTask.openFileTask path])
    | FileAction.openFileForceCurrentTab path => (app, [AppTask.openFileTask path])
    | FileAction.openFileNewTab path => (app, [AppTask.openFileTask path])
  | GenericAction.pane pa =>
    match pa with
    | PaneAction.close id =>
      let r := app.state.panes.remove id
      let docs1 :=
        match r.1 with
        | some (Pane.editor doc_id) => app.state.documents.remove doc_id
        | _ => app.state.documents
      let panes2 :=
        if r.2.count = 0 then
          let a := r.2.add Pane.newDocument
          a.2.openPane a.1
        else r.2
      ({ app with state := { app.state with panes := panes2, documents := docs1 } }, [])
    | PaneAction.openPane id =>
      ({ app with state := { app.state with panes := app.state.panes.openPane id } }, [])
    | PaneAction.add p =>
      let a := app.state.panes.add p
      ({ app with state := { app.state with panes := a.2.openPane a.1 } }, [])
    | PaneAction.replace id p =>
      ({ app with state := { app.state with panes := app.state.panes.replace id p } }, [])
  | GenericAction.document da =>
    match da with
    | DocumentAction.add h =>
      let h2 : DocumentHandler :=
        { text_content := Content.withText h.text_content.text
          path := h.path
          filename := h.filename
          changed := h.changed }
      let a := app.state.documents.add h2
      ({ app with state := { app.state with documents := a.2 } }, [])
    | DocumentAction.openDoc id =>
      (app,
        [AppTask.doneMsg
          (AppMessage.action (Action.new (GenericAction.pane (PaneAction.add (Pane.editor id)))))])
    | DocumentAction.save id =>
      match app.state.documents.get id with
      | some handler =>
        (app, [AppTask.saveFileTask handler.path handler.text_content.text (AppMessage.savedFile id)])
      | none => (app, [])
    | DocumentAction.remove id =>
      ({ app with state := { app.state with documents := app.state.documents.remove id } }, [])

/-- Sequential application of the generic actions a plugin rewrite produced,
mirroring the loop in the `AppMessage::Action` arm of `App::update`. -/
def App.performAll (app : App) (actions : List GenericAction) : App × List AppTask :=
  match actions with
  | [] => (app, [])
  | a :: rest =>
    let r1 := app.perform_action a
    let r2 := r1.1.performAll rest
    (r2.1, r1.2 ++ r2.2)

/-- The inline modifier computation of `App::on_key_press`: fold the incoming
modifier mask onto the modifier-set enum; Ctrl+Alt folds to CtrlAlt, Shift
and logo are not consulted. -/
def normalizeModifiers (modifiers : IcedModifiers) : Modifiers :=
  if modifiers.control && modifiers.alt then Modifiers.ctrlAlt
  else if modifiers.control then Modifiers.ctrl
  else if modifiers.alt then Modifiers.alt
  else Modifiers.none

/-- `App::on_key_press`: character keys are normalized onto the modifier-set
enum and looked up exactly in the registry; the bound closure is evaluated
on the state; anything else is dropped. -/
def App.on_key_press (app : App) (key : Key) (modifiers : IcedModifiers) : Option AppMessage :=
  match key with
  | Key.character c =>
    match lget app.hotkeys { modifiers := normalizeModifiers modifiers, key := firstChar c } with
    | some f => some (f app.state)
    | none => none
  | _ => none

/-- `App::update`, the single reducer of `gui/src/main.rs`, restricted to the
claim-relevant messages.  The plugin host of the `AppMessage::Action` arm is
modelled from the spec by its pass-through default (the only registered
plugin, `ExamplePlugin`, rewrites nothing): the action is applied as the
singleton list of its generic action. -/
def App.update (app : App) (message : AppMessage) : App × List AppTask :=
  match message with
  | AppMessage.noneMsg => (app, [])
  | AppMessage.action a => app.performAll [a.generic]
  | AppMessage.genericAction a => app.perform_action a
  | AppMessage.savedFile id =>
    ({ app with state := { app.state with
        documents := app.state.documents.modify id (fun h => { h with changed := false }) } }, [])
  | AppMessage.onKeyPress key modifiers =>
    match app.on_key_press key modifiers with
    | some msg => (app, [AppTask.doneMsg msg])
    | none => (app, [])
  | AppMessage.textEditorAction a doc =>
    ({ app with state := { app.state with
        documents := app.state.documents.modify doc (fun h =>
          let h1 := if a.is_edit then { h with changed := true } else h
          { h1 with text_content := h1.text_content.perform a }) } }, [])
  | AppMessage.openedFile r =>
    match r with
    | Except.ok pc =>
      let handler : DocumentHandler :=
        { text_content := Content.withText pc.2
          path := pc.1
          filename := getFileName pc.1
          changed := false }
      let a := app.state.documents.add handler
      let pane := Pane.editor a.1
      let panes1 :=
        if app.state.panes.get_open = some Pane.newDocument then
          app.state.panes.replace ((app.state.panes.get_open_id).getD 0) pane
        else
          let b := app.state.panes.add pane
          b.2.openPane b.1
      ({ app with state := { app.state with documents := a.2, panes := panes1 } }, [])
    | Except.error _ => (app, [])

/-- **C8.** For every `Config` `c`, namespace, property and value,
`c.insert(ns, prop, v)` followed by `c.get(ns, prop)` yields `Some v`,
whatever the prior contents of `c` (duplicate insertion overwrites). -/
theorem C8_config_insert_get (c : Config) (ns prop : String) (v : Value) :
    (c.insert ns prop v).get ns prop = some v := by
  unfold Config.insert Config.get
  cases h : lget c.namespaces ns with
  | some m =>
    simp only [h, Option.isSome_some, if_true]
    rw [lget_lmodify_self c.namespaces ns _ m h]
    exact lget_lput_self m prop v
  | none =>
    simp only [h, Option.isSome_none, Bool.false_eq_true, if_false]
    rw [lget_lput_self c.namespaces ns [(prop, v)]]
    simp [lget]

/-! Concrete fixtures used by witnesses and counterexamples. -/

/-- A dirty handler for the file `/x/a.txt` holding the text `hello!`. -/
def handlerA : DocumentHandler :=
  { text_content := ⟨"hello!"⟩, path := "/x/a.txt", filename := "a.txt", changed := true }

/-- The freshly started session: one focused `NewDocument` pane `p0`. -/
def app0 : App :=
  { state :=
      { documents := DocumentStore.new
        panes := ⟨[(0, Pane.newDocument)], 1, some 0⟩
        config := Config.new }
    hotkeys := [] }

/-- A session with one focused `Editor` pane `p0` showing document 1. -/
def appE : App :=
  { state :=
      { documents := ⟨[(1, handlerA)], 2⟩
        panes := ⟨[(0, Pane.editor 1)], 1, some 0⟩
        config := Config.new }
    hotkeys := [] }

/-- The message the fixture Ctrl-o binding produces. -/
def fWmsg : AppMessage := AppMessage.action (Action.new (GenericAction.file FileAction.pickFile))

/-- The fixture Ctrl-o closure. -/
def fW : State → AppMessage := fun _ => fWmsg

/-- An empty session whose registry binds Ctrl-o to `fW`. -/
def appW : App :=
  { state := { documents := DocumentStore.new, panes := PaneModel.new, config := Config.new }
    hotkeys := [({ modifiers := Modifiers.ctrl, key := 'o' }, fW)] }

/-- **C6.** Processing `SavedFile(d)` resets the handler's `changed` flag to
false exactly when `documents.get(d)` is `Some`; a completion arriving after
the document was removed is a silent no-op leaving the session unchanged. -/
theorem C6_savedfile_exactly_when_present (app : App) (d : Nat) :
    (∀ h, app.state.documents.get d = some h →
        (app.update (AppMessage.savedFile d)).1.state.documents.get d
            = some { h with changed := false }
        ∧ (app.update (AppMessage.savedFile d)).1.state.panes = app.state.panes
        ∧ (app.update (AppMessage.savedFile d)).2 = [])
    ∧ (app.state.documents.get d = none →
        app.update (AppMessage.savedFile d) = (app, [])) := by
  constructor
  · intro h hget
    refine ⟨?_, rfl, rfl⟩
    have hget' : lget app.state.documents.docs d = some h := hget
    simp only [App.update, DocumentStore.modify, DocumentStore.get]
    exact lget_lmodify_self _ _ _ _ hget'
  · intro hget
    have hget' : lget app.state.documents.docs d = none := hget
    simp only [App.update, DocumentStore.modify]
    rw [lmodify_of_lget_none _ _ _ hget']

/-- **C6 witness.** Saving document 1 of `appE` clears its dirty flag; saving
the absent document 7 changes nothing. -/
theorem C6_witness :
    appE.state.documents.get 1 = some handlerA
    ∧ (appE.update (AppMessage.savedFile 1)).1.state.documents.get 1
        = some { handlerA with changed := false }
    ∧ appE.state.documents.get 7 = none
    ∧ appE.update (AppMessage.savedFile 7) = (appE, []) :=
  ⟨rfl,
   ((C6_savedfile_exactly_when_present appE 1).1 handlerA rfl).1,
   rfl,
   (C6_savedfile_exactly_when_present appE 7).2 rfl⟩

/-- **C7.** For a document `d` present in the store, `TextEditorAction(a, d)`
sets `changed` whenever `a` is classified as mutating by `is_edit`, leaves a
clean document clean on a non-edit action, and in both cases applies the
action to the buffer. -/
theorem C7_texteditor_dirty_tracking (app : App) (a : TextAction) (d : Nat)
    (h : DocumentHandler) (hget : app.state.documents.get d = some h) :
    (a.is_edit = true →
        ((app.update (AppMessage.textEditorAction a d)).1.state.documents.get d).map
            DocumentHandler.changed = some true)
    ∧ (a.is_edit = false → h.changed = false →
        ((app.update (AppMessage.textEditorAction a d)).1.state.documents.get d).map
            DocumentHandler.changed = some false)
    ∧ ((app.update (AppMessage.textEditorAction a d)).1.state.documents.get d).map
        DocumentHandler.text_content = some (h.text_content.perform a) := by
  have hget' : lget app.state.documents.docs d = some h := hget
  have hmod : (app.update (AppMessage.textEditorAction a d)).1.state.documents.get d
      = some ((fun hh =>
          let h1 := if a.is_edit then { hh with changed := true } else hh
          { h1 with text_content := h1.text_content.perform a }) h) := by
    simp only [App.update, DocumentStore.modify, DocumentStore.get]
    exact lget_lmodify_self _ _ _ _ hget'
  refine ⟨?_, ?_, ?_⟩
  · intro hedit
    rw [hmod]
    simp [hedit]
  · intro hedit hclean
    rw [hmod]
    simp [hedit, hclean]
  · rw [hmod]
    by_cases hedit : a.is_edit <;> simp [hedit]

/-- **C7 witness.** On `appE`: inserting a character into document 1 marks it
dirty and appends to the buffer; a cursor motion on a cleaned-up copy leaves
it clean. -/
theorem C7_witness :
    appE.state.documents.get 1 = some handlerA
    ∧ ((appE.update (AppMessage.textEditorAction (TextAction.edit (TextEdit.insert 'x')) 1)).1.state.documents.get 1).map
        DocumentHandler.changed = some true
    ∧ ((appE.update (AppMessage.textEditorAction (TextAction.edit (TextEdit.insert 'x')) 1)).1.state.documents.get 1).map
        DocumentHandler.text_content = some (handlerA.text_content.perform (TextAction.edit (TextEdit.insert 'x'))) :=
  ⟨rfl,
   (C7_texteditor_dirty_tracking appE (TextAction.edit (TextEdit.insert 'x')) 1 handlerA rfl).1 rfl,
   (C7_texteditor_dirty_tracking appE (TextAction.edit (TextEdit.insert 'x')) 1 handlerA rfl).2.2⟩

/-- **C9.** Applying `PaneAction::Close(i)` with a pane id `i` that is not in
the pane model, on a session with at least one pane, is a silent no-op: the
whole session state and the scheduled tasks are exactly those of doing
nothing. -/
theorem C9_close_unknown_id_noop (app : App) (i : Nat)
    (hget : app.state.panes.get i = none)
    (hcount : 1 ≤ app.state.panes.count) :
    app.perform_action (GenericAction.pane (PaneAction.close i)) = (app, []) := by
  have hget' : lget app.state.panes.panes i = none := hget
  have hc : ¬ app.state.panes.count = 0 := by omega
  simp only [App.perform_action, PaneModel.remove, hget']
  simp only [PaneModel.count] at hc ⊢
  simp [hc]

/-- **C9 witness.** Closing pane 9999 on the one-pane session `appE` leaves
everything untouched (spec scenario S6). -/
theorem C9_witness :
    appE.state.panes.get 9999 = none
    ∧ 1 ≤ appE.state.panes.count
    ∧ appE.perform_action (GenericAction.pane (PaneAction.close 9999)) = (appE, []) :=
  ⟨by decide, by decide, C9_close_unknown_id_noop appE 9999 (by decide) (by decide)⟩

/-- **C5.** A key press that normalizes to a bound chord emits exactly the
bound closure's message evaluated on the current state; a press whose
normalized chord matches no binding is dropped: no message, no state change,
no task. -/
theorem C5_hotkey_dispatch (app : App) (s : String) (mods : IcedModifiers) :
    (∀ f, lget app.hotkeys { modifiers := normalizeModifiers mods, key := firstChar s } = some f →
        app.update (AppMessage.onKeyPress (Key.character s) mods)
            = (app, [AppTask.doneMsg (f app.state)]))
    ∧ (lget app.hotkeys { modifiers := normalizeModifiers mods, key := firstChar s } = none →
        app.update (AppMessage.onKeyPress (Key.character s) mods) = (app, [])) := by
  constructor
  · intro f hf
    simp only [App.update, App.on_key_press]
    rw [hf]
  · intro hf
    simp only [App.update, App.on_key_press]
    rw [hf]

/-- **C5 witness.** On `appW` (Ctrl-o bound to `fW`): pressing Ctrl-o emits
`fW(state)`, and pressing the unbound Ctrl-q is dropped. -/
theorem C5_witness :
    lget appW.hotkeys { modifiers := normalizeModifiers ⟨false, true, false, false⟩, key := firstChar "o" } = some fW
    ∧ appW.update (AppMessage.onKeyPress (Key.character "o") ⟨false, true, false, false⟩)
        = (appW, [AppTask.doneMsg (fW appW.state)])
    ∧ lget appW.hotkeys { modifiers := normalizeModifiers ⟨false, true, false, false⟩, key := firstChar "q" } = none
    ∧ appW.update (AppMessage.onKeyPress (Key.character "q") ⟨false, true, false, false⟩)
        = (appW, []) :=
  ⟨rfl,
   (C5_hotkey_dispatch appW "o" ⟨false, true, false, false⟩).1 fW rfl,
   rfl,
   (C5_hotkey_dispatch appW "q" ⟨false, true, false, false⟩).2 rfl⟩

/-- **C10.** The hotkey dispatcher's outcome is invariant under the Shift and
logo modifiers: two deliveries of the same key whose masks agree on Ctrl and
Alt resolve identically, because normalization projects the mask onto
{None, Ctrl, Alt, CtrlAlt}. -/
theorem C10_shift_logo_invariant (app : App) (key : Key) (m1 m2 : IcedModifiers)
    (hc : m1.control = m2.control) (ha : m1.alt = m2.alt) :
    app.on_key_press key m1 = app.on_key_press key m2 := by
  cases key with
  | character s =>
    simp only [App.on_key_press, normalizeModifiers]
    rw [hc, ha]
  | named code => rfl
  | unidentified => rfl

/-- **C10 witness.** On `appW`, Ctrl+Shift+o resolves exactly like Ctrl+o and
triggers the Ctrl+o binding. -/
theorem C10_witness :
    (⟨true, true, false, false⟩ : IcedModifiers).control = (⟨false, true, false, false⟩ : IcedModifiers).control
    ∧ (⟨true, true, false, false⟩ : IcedModifiers).alt = (⟨false, true, false, false⟩ : IcedModifiers).alt
    ∧ appW.on_key_press (Key.character "o") ⟨true, true, false, false⟩
        = appW.on_key_press (Key.character "o") ⟨false, true, false, false⟩
    ∧ appW.on_key_press (Key.character "o") ⟨false, true, false, false⟩ = some fWmsg :=
  ⟨rfl, rfl,
   C10_shift_logo_invariant appW (Key.character "o") ⟨true, true, false, false⟩ ⟨false, true, false, false⟩ rfl rfl,
   rfl⟩

/-- **C1.** Applying `PaneAction::Close(i)` to a pane `i` present in a
well-formed pane model removes pane `i`; if that pane was `Editor(d)`,
document `d` is removed from the document store; and if the removal empties
the pane model, a fresh `NewDocument` pane is added under the next allocator
id and focused. -/
theorem C1_close_pane (app : App) (i : Nat) (p : Pane)
    (hwf : app.state.panes.wf)
    (hget : app.state.panes.get i = some p) :
    ((app.perform_action (GenericAction.pane (PaneAction.close i))).1.state.panes.get i = none)
    ∧ (∀ d, p = Pane.editor d →
        (app.perform_action (GenericAction.pane (PaneAction.close i))).1.state.documents.get d
            = none)
    ∧ (app.state.panes.count = 1 →
        (app.perform_action (GenericAction.pane (PaneAction.close i))).1.state.panes.get
            app.state.panes.next_id = some Pane.newDocument
        ∧ (app.perform_action (GenericAction.pane (PaneAction.close i))).1.state.panes.get_open_id
            = some app.state.panes.next_id
        ∧ (app.perform_action (GenericAction.pane (PaneAction.close i))).1.state.panes.count
            = 1) := by
  have hget' : lget app.state.panes.panes i = some p := hget
  have hi : i < app.state.panes.next_id := lt_of_keysBelow _ _ _ _ hwf hget'
  have hne : i ≠ app.state.panes.next_id := by omega
  refine ⟨?_, ?_, ?_⟩
  · simp only [App.perform_action, PaneModel.remove, hget']
    by_cases hE : (lerase app.state.panes.panes i).length = 0
    · simp only [PaneModel.count, PaneModel.add, PaneModel.openPane, PaneModel.get, hE, if_true,
        lget_lput_self, Option.isSome_some]
      rw [lget_lput_ne _ _ _ _ hne]
      exact lget_lerase_self _ _
    · simp only [PaneModel.count, hE, if_false, PaneModel.get]
      exact lget_lerase_self _ _
  · intro d hd
    subst hd
    simp only [App.perform_action, PaneModel.remove, hget', DocumentStore.remove,
      DocumentStore.get]
    exact lget_lerase_self _ _
  · intro hcount
    have hlen : app.state.panes.panes.length = 1 := hcount
    have hsing : app.state.panes.panes = [(i, p)] :=
      eq_singleton_of_length_one _ _ _ hlen hget'
    have hE : lerase app.state.panes.panes i = [] := by
      rw [hsing]
      simp [lerase]
    refine ⟨?_, ?_, ?_⟩ <;>
      simp [App.perform_action, PaneModel.remove, hget', hE, PaneModel.count, PaneModel.add,
        PaneModel.openPane, PaneModel.get, PaneModel.get_open_id, lput, lget]

/-- **C1 witness.** Closing the focused `Editor(1)` pane of the one-pane
session `appE` removes the pane and document 1 and seeds a fresh focused
`NewDocument` pane under the next pane id (spec scenario S2). -/
theorem C1_witness :
    appE.state.panes.wf
    ∧ appE.state.panes.get 0 = some (Pane.editor 1)
    ∧ ((appE.perform_action (GenericAction.pane (PaneAction.close 0))).1.state.panes.get 0 = none
      ∧ (∀ d, Pane.editor 1 = Pane.editor d →
          (appE.perform_action (GenericAction.pane (PaneAction.close 0))).1.state.documents.get d
              = none)
      ∧ (appE.state.panes.count = 1 →
          (appE.perform_action (GenericAction.pane (PaneAction.close 0))).1.state.panes.get
              appE.state.panes.next_id = some Pane.newDocument
          ∧ (appE.perform_action (GenericAction.pane (PaneAction.close 0))).1.state.panes.get_open_id
              = some appE.state.panes.next_id
          ∧ (appE.perform_action (GenericAction.pane (PaneAction.close 0))).1.state.panes.count
              = 1)) :=
  ⟨by decide, by decide, C1_close_pane appE 0 (Pane.editor 1) (by decide) (by decide)⟩

/-- **C2.** Processing `OpenedFile(Ok((path, content)))` on a session with a
well-formed document store adds exactly one handler — fresh id, the file's
content, filename derived from the path, `changed = false` — and places it:
if the focused pane is `NewDocument`, that pane id is replaced in place by
`Editor(new id)` (pane count unchanged); otherwise a new `Editor` pane is
added and focused. -/
theorem C2_openedfile_places_document (app : App) (path content : String)
    (hdwf : app.state.documents.wf) :
    ((app.update (AppMessage.openedFile (Except.ok (path, content)))).1.state.documents.get
        app.state.documents.next_id
        = some { text_content := Content.withText content, path := path,
                 filename := getFileName path, changed := false })
    ∧ ((app.update (AppMessage.openedFile (Except.ok (path, content)))).1.state.documents.count
        = app.state.documents.count + 1)
    ∧ (∀ pid, app.state.panes.get_open = some Pane.newDocument →
        app.state.panes.get_open_id = some pid →
        (app.update (AppMessage.openedFile (Except.ok (path, content)))).1.state.panes.get pid
            = some (Pane.editor app.state.documents.next_id)
        ∧ (app.update (AppMessage.openedFile (Except.ok (path, content)))).1.state.panes.count
            = app.state.panes.count)
    ∧ (¬ app.state.panes.get_open = some Pane.newDocument →
        (app.update (AppMessage.openedFile (Except.ok (path, content)))).1.state.panes.get
            app.state.panes.next_id = some (Pane.editor app.state.documents.next_id)
        ∧ (app.update (AppMessage.openedFile (Except.ok (path, content)))).1.state.panes.get_open_id
            = some app.state.panes.next_id) := by
  have hnone : lget app.state.documents.docs app.state.documents.next_id = none :=
    lget_of_keysBelow _ _ hdwf
  refine ⟨?_, ?_, ?_, ?_⟩
  · simp only [App.update, DocumentStore.add, DocumentStore.get]
    exact lget_lput_self _ _ _
  · simp only [App.update, DocumentStore.add, DocumentStore.count]
    exact length_lput_of_none _ _ _ hnone
  · intro pid hopen hopenid
    have hoid : app.state.panes.open_id = some pid := hopenid
    have hpid : lget app.state.panes.panes pid = some Pane.newDocument := by
      have heq : app.state.panes.get_open = lget app.state.panes.panes pid := by
        unfold PaneModel.get_open
        rw [hoid]
      rw [← heq, hopen]
    constructor
    · simp only [App.update, hopen, if_true, PaneModel.replace, PaneModel.get,
        PaneModel.get_open_id, hoid, Option.getD_some]
      exact lget_lmodify_self _ _ _ _ hpid
    · simp only [App.update, hopen, if_true, PaneModel.replace, PaneModel.count]
      exact length_lmodify _ _ _
  · intro hopen
    constructor
    · simp only [App.update, hopen, if_false, DocumentStore.add, PaneModel.add,
        PaneModel.openPane, PaneModel.get, lget_lput_self, Option.isSome_some, if_true]
    · simp only [App.update, hopen, if_false, DocumentStore.add, PaneModel.add,
        PaneModel.openPane, PaneModel.get_open_id, lget_lput_self, Option.isSome_some, if_true]

/-- **C2 witness.** Spec scenario S1 on the fresh session `app0`: the read of
`/x/a.txt` completing with `hello` yields document 1 — text `hello`,
filename `a.txt`, clean — and pane 0, previously `NewDocument`, now holds
`Editor(1)` with the pane count still 1. -/
theorem C2_witness :
    app0.state.documents.wf
    ∧ getFileName "/x/a.txt" = "a.txt"
    ∧ (app0.update (AppMessage.openedFile (Except.ok ("/x/a.txt", "hello")))).1.state.documents.get 1
        = some { text_content := Content.withText "hello", path := "/x/a.txt",
                 filename := getFileName "/x/a.txt", changed := false }
    ∧ app0.state.panes.get_open = some Pane.newDocument
    ∧ (app0.update (AppMessage.openedFile (Except.ok ("/x/a.txt", "hello")))).1.state.panes.get 0
        = some (Pane.editor 1)
    ∧ (app0.update (AppMessage.openedFile (Except.ok ("/x/a.txt", "hello")))).1.state.panes.count
        = app0.state.panes.count :=
  ⟨by decide, rfl,
   (C2_openedfile_places_document app0 "/x/a.txt" "hello" (by decide)).1,
   rfl,
   ((C2_openedfile_places_document app0 "/x/a.txt" "hello" (by decide)).2.2.1 0 rfl rfl).1,
   ((C2_openedfile_places_document app0 "/x/a.txt" "hello" (by decide)).2.2.1 0 rfl rfl).2⟩

/-- **C3 counterexample.** The claim says a save whose file write fails
leaves `changed == true`.  On `appE` (document 1 dirty), `Save(1)` schedules
a write task whose completion callback discards the write's result, so even
the failed write (`Err(())`) delivers `SavedFile(1)`, and processing it
clears `changed` to `false` — the claim is false at this input. -/
theorem C3_counterexample :
    appE.perform_action (GenericAction.document (DocumentAction.save 1))
        = (appE, [AppTask.saveFileTask "/x/a.txt" "hello!" (AppMessage.savedFile 1)])
    ∧ AppTask.saveCompletion
        (AppTask.saveFileTask "/x/a.txt" "hello!" (AppMessage.savedFile 1)) (Except.error ())
        = some (AppMessage.savedFile 1)
    ∧ (appE.state.documents.get 1).map DocumentHandler.changed = some true
    ∧ ((appE.update (AppMessage.savedFile 1)).1.state.documents.get 1).map
        DocumentHandler.changed = some false :=
  ⟨rfl, rfl, rfl, rfl⟩

/-- **C3 amended.** `DocumentAction::Save(d)` on a present document schedules
an asynchronous write of the buffer text to the handler's path; the
completion callback ignores the write's result, so `SavedFile(d)` is emitted
for every outcome — success or failure — and processing it clears the
`changed` flag. -/
theorem C3_save_clears_changed_on_any_completion (app : App) (d : Nat) (h : DocumentHandler)
    (hget : app.state.documents.get d = some h) :
    app.perform_action (GenericAction.document (DocumentAction.save d))
        = (app, [AppTask.saveFileTask h.path h.text_content.text (AppMessage.savedFile d)])
    ∧ (∀ r : Except Unit Unit,
        AppTask.saveCompletion
            (AppTask.saveFileTask h.path h.text_content.text (AppMessage.savedFile d)) r
            = some (AppMessage.savedFile d))
    ∧ (app.update (AppMessage.savedFile d)).1.state.documents.get d
        = some { h with changed := false } := by
  refine ⟨?_, fun r => rfl, ?_⟩
  · simp only [App.perform_action, hget]
  · have hget' : lget app.state.documents.docs d = some h := hget
    simp only [App.update, DocumentStore.modify, DocumentStore.get]
    exact lget_lmodify_self _ _ _ _ hget'

/-- **C3 amended witness.** Saving document 1 of `appE`: the scheduled write
carries the buffer text and path, any completion result yields
`SavedFile(1)`, and processing it leaves the handler clean. -/
theorem C3_witness :
    appE.state.documents.get 1 = some handlerA
    ∧ appE.perform_action (GenericAction.document (DocumentAction.save 1))
        = (appE, [AppTask.saveFileTask handlerA.path handlerA.text_content.text
            (AppMessage.savedFile 1)])
    ∧ AppTask.saveCompletion
        (AppTask.saveFileTask handlerA.path handlerA.text_content.text (AppMessage.savedFile 1))
        (Except.ok ())
        = some (AppMessage.savedFile 1)
    ∧ (appE.update (AppMessage.savedFile 1)).1.state.documents.get 1
        = some { handlerA with changed := false } :=
  ⟨rfl,
   (C3_save_clears_changed_on_any_completion appE 1 handlerA rfl).1,
   (C3_save_clears_changed_on_any_completion appE 1 handlerA rfl).2.1 (Except.ok ()),
   (C3_save_clears_changed_on_any_completion appE 1 handlerA rfl).2.2⟩

/-- **C4.** Evaluation of the code at the spec's divergence point:
`OpenFileNewTab(path)` schedules exactly the same read task as
`OpenFileCurrentTab(path)`, whose completion is handled by the shared
`OpenedFile` arm; on the fresh session `app0`, whose focused pane 0 is
`NewDocument`, the successful read *replaces* pane 0 with `Editor(1)` and
the pane count stays 1 — no new editor pane is added. -/
theorem C4_newtab_code_eval :
    app0.perform_action (GenericAction.file (FileAction.openFileNewTab "/x/a.txt"))
        = (app0, [AppTask.openFileTask "/x/a.txt"])
    ∧ app0.perform_action (GenericAction.file (FileAction.openFileCurrentTab "/x/a.txt"))
        = app0.perform_action (GenericAction.file (FileAction.openFileNewTab "/x/a.txt"))
    ∧ AppTask.openCompletion (AppTask.openFileTask "/x/a.txt")
        (Except.ok ("/x/a.txt", "hello"))
        = some (AppMessage.openedFile (Except.ok ("/x/a.txt", "hello")))
    ∧ (app0.update (AppMessage.openedFile (Except.ok ("/x/a.txt", "hello")))).1.state.panes.count
        = 1
    ∧ (app0.update (AppMessage.openedFile (Except.ok ("/x/a.txt", "hello")))).1.state.panes.get 0
        = some (Pane.editor 1) :=
  ⟨rfl, rfl, rfl, rfl, rfl⟩

end P3
